import Mathlib

/-!
Verification of the laudus-api synchronization scripts.

The Python sources under src/scripts are embedded shallowly:

- MongoDB collections become lists of documents; a database becomes a
  function from collection name to such a list.  The replace_one upsert
  of pymongo is modelled by an executable function that replaces the
  first document whose _id field matches, or appends a fresh one.
- Calendar days on the daily axis are modelled as natural numbers
  (day indices); the canonical YYYY-MM-DD string keys of the source are
  order-isomorphic to this axis, and the natural key of a document is
  the rendered day index joined to the endpoint name with a dash,
  mirroring the f-string key construction of the source.
- The backfill script, whose month arithmetic matters, gets an explicit
  date type with year, month and day fields together with the Gregorian
  month lengths used by calendar.monthrange.
- Network effects are oracles: a fetch oracle maps an attempt number to
  an optional payload, and an HTTP session maps an attempt index to a
  response.  Timestamps are passed in as plain naturals.
-/

/-- One entry of the ENDPOINTS tables of the fetch_balancesheet scripts:
an endpoint name, its REST path and the MongoDB collection it is stored in. -/
structure Endpoint where
  name : String
  path : String
  collection : String
  deriving DecidableEq

/-- The ENDPOINTS table shared by fetch_balancesheet.py,
fetch_balancesheet_daily.py and fetch_balancesheet_backfill.py. -/
def ENDPOINTS : List Endpoint :=
  [⟨"totals", "/accounting/balanceSheet/totals", "balance_totals"⟩,
   ⟨"standard", "/accounting/balanceSheet/standard", "balance_standard"⟩,
   ⟨"8Columns", "/accounting/balanceSheet/8Columns", "balance_8columns"⟩]

/-- A persisted Sync Record, mirroring the document built by
MongoDBClient.save_data: _id, date, endpointType, recordCount,
insertedAt, loadSource and the opaque payload list.  The payload record
type is a parameter because the scripts treat it as opaque JSON. -/
structure SyncDoc (α : Type) where
  docId : String
  date : String
  endpointType : String
  recordCount : Nat
  insertedAt : Nat
  loadSource : String
  data : List α
  deriving DecidableEq

/-- A MongoDB database: collection name to list of documents. -/
abbrev DBase (α : Type) := String → List (SyncDoc α)

/-- The pymongo replace_one upsert on one collection: replace the first
document whose _id equals the key, or append the new document. -/
def replaceOne {α : Type} (key : String) (newDoc : SyncDoc α) :
    List (SyncDoc α) → List (SyncDoc α)
  | [] => [newDoc]
  | d :: ds => if d.docId = key then newDoc :: ds else d :: replaceOne key newDoc ds

/-- The document built by MongoDBClient.save_data from the fetched data,
endpoint name, date string, provenance tag and insertion timestamp. -/
def builtDoc {α : Type} (loadSource : String) (now : Nat) (data : List α)
    (endpointName dateStr : String) : SyncDoc α :=
  ⟨dateStr ++ "-" ++ endpointName, dateStr, endpointName, data.length, now,
   loadSource, data⟩

/-- MongoDBClient.save_data on the success path: build the document and
upsert it with replace_one keyed on its _id. -/
def save_data {α : Type} (loadSource : String) (now : Nat)
    (coll : List (SyncDoc α)) (data : List α) (endpointName dateStr : String) :
    List (SyncDoc α) :=
  replaceOne (dateStr ++ "-" ++ endpointName)
    (builtDoc loadSource now data endpointName dateStr) coll

/-- The find_one existence query by _id used throughout the scripts. -/
def findOne {α : Type} (key : String) (coll : List (SyncDoc α)) : Option (SyncDoc α) :=
  coll.find? (fun d => d.docId = key)

/-- Number of documents stored under a given _id. -/
def countKey {α : Type} (key : String) (coll : List (SyncDoc α)) : Nat :=
  (coll.filter (fun d => d.docId = key)).length

theorem countKey_replaceOne {α : Type} (key : String) (nd : SyncDoc α)
    (hd : nd.docId = key) (l : List (SyncDoc α)) :
    countKey key (replaceOne key nd l) = if countKey key l = 0 then 1 else countKey key l := by
  induction l with
  | nil => simp [replaceOne, countKey, hd]
  | cons d ds ih =>
    by_cases h : d.docId = key
    · simp [replaceOne, countKey, h, hd, List.filter] at *
    · simp only [replaceOne, h, if_false]
      have : countKey key (d :: ds) = countKey key ds := by
        simp [countKey, List.filter, h]
      rw [show countKey key (d :: replaceOne key nd ds)
            = countKey key (replaceOne key nd ds) by simp [countKey, List.filter, h],
          ih, this]

theorem findOne_replaceOne {α : Type} (key : String) (nd : SyncDoc α)
    (hd : nd.docId = key) (l : List (SyncDoc α)) :
    findOne key (replaceOne key nd l) = some nd := by
  induction l with
  | nil => simp [replaceOne, findOne, List.find?, hd]
  | cons d ds ih =>
    by_cases h : d.docId = key
    · simp [replaceOne, findOne, List.find?, h, hd]
    · simpa [replaceOne, findOne, List.find?, h] using ih

/-- C1: saving the same (period, reportKind, payload) twice through the
Persistence Writer leaves exactly one Sync Record under the natural key
period-reportKind, and that record equals the one built by the second
write alone, its insertion timestamp superseding the first.  The
hypothesis is the collection invariant that MongoDB itself enforces:
at most one document per _id. -/
theorem save_twice_one_record {α : Type} [DecidableEq α] (src : String)
    (t1 t2 : Nat) (coll : List (SyncDoc α)) (data : List α)
    (endpointName dateStr : String)
    (h : countKey (dateStr ++ "-" ++ endpointName) coll ≤ 1) :
    countKey (dateStr ++ "-" ++ endpointName)
        (save_data src t2 (save_data src t1 coll data endpointName dateStr)
          data endpointName dateStr) = 1 ∧
    findOne (dateStr ++ "-" ++ endpointName)
        (save_data src t2 (save_data src t1 coll data endpointName dateStr)
          data endpointName dateStr)
      = some (builtDoc src t2 data endpointName dateStr) := by
  constructor
  · rw [save_data, countKey_replaceOne (dateStr ++ "-" ++ endpointName)
          (builtDoc src t2 data endpointName dateStr) rfl, save_data,
        countKey_replaceOne (dateStr ++ "-" ++ endpointName)
          (builtDoc src t1 data endpointName dateStr) rfl]
    rcases Nat.le_one_iff_eq_zero_or_eq_one.mp h with h0 | h0 <;> simp [h0]
  · exact findOne_replaceOne (dateStr ++ "-" ++ endpointName)
      (builtDoc src t2 data endpointName dateStr) rfl _

/-- Witness for C1 at a concrete store and payload. -/
theorem save_twice_one_record_witness :
    countKey "7-totals"
        (save_data "automatic" 20 (save_data "automatic" 10 ([] : List (SyncDoc Nat))
          [5, 6] "totals" "7") [5, 6] "totals" "7") = 1 ∧
    findOne "7-totals"
        (save_data "automatic" 20 (save_data "automatic" 10 ([] : List (SyncDoc Nat))
          [5, 6] "totals" "7") [5, 6] "totals" "7")
      = some (builtDoc "automatic" 20 [5, 6] "totals" "7") :=
  save_twice_one_record "automatic" 10 20 [] [5, 6] "totals" "7" (by decide)

/-- Rendering of a day index as its canonical period string.  The daily
axis is modelled by naturals; the YYYY-MM-DD strings of the source are
order-isomorphic to it. -/
def dayStr (d : Nat) : String := toString d

/-- The natural key built by the daily scripts: period string, a dash,
then the endpoint name. -/
def natKey (d : Nat) (name : String) : String := dayStr d ++ "-" ++ name

/-- Existence of the Sync Record of one Report Unit, as tested by
collection.find_one on the _id field in check_date_exists. -/
def dateHasDoc {α : Type} (db : DBase α) (ep : Endpoint) (d : Nat) : Bool :=
  ((db ep.collection).find? (fun x => x.docId = natKey d ep.name)).isSome

/-- MongoDBClient.check_date_exists of fetch_balancesheet_daily.py:
collect the endpoint names whose document for the date is absent and
report whether all of them exist. -/
def check_date_exists {α : Type} (db : DBase α) (d : Nat) : Bool × List String :=
  let missing := (ENDPOINTS.filter (fun ep => ¬ dateHasDoc db ep d)).map (fun ep => ep.name)
  (missing.isEmpty, missing)

/-- generate_date_range of fetch_balancesheet_daily.py: all day indices
from start to end inclusive, ascending. -/
def generate_date_range (s e : Nat) : List Nat :=
  (List.range (e + 1 - s)).map (fun i => s + i)

/-- get_missing_dates of fetch_balancesheet_daily.py: the dates of the
range for which check_date_exists reports an incomplete set. -/
def get_missing_dates {α : Type} (db : DBase α) (s e : Nat) : List Nat :=
  (generate_date_range s e).filter (fun d => ¬ (check_date_exists db d).1)

theorem mem_generate_date_range {s e d : Nat} :
    d ∈ generate_date_range s e ↔ s ≤ d ∧ d ≤ e := by
  simp only [generate_date_range, List.mem_map, List.mem_range]
  constructor
  · rintro ⟨i, hi, rfl⟩
    omega
  · rintro ⟨h1, h2⟩
    exact ⟨d - s, by omega, by omega⟩

theorem mem_check_missing {α : Type} (db : DBase α) (d : Nat) (name : String) :
    name ∈ (check_date_exists db d).2 ↔
      ∃ ep ∈ ENDPOINTS, ep.name = name ∧ dateHasDoc db ep d = false := by
  simp only [check_date_exists, List.mem_map, List.mem_filter]
  constructor
  · rintro ⟨ep, ⟨hmem, hfalse⟩, rfl⟩
    exact ⟨ep, hmem, rfl, by simpa using hfalse⟩
  · rintro ⟨ep, hmem, rfl, hfalse⟩
    exact ⟨ep, ⟨hmem, by simpa using hfalse⟩, rfl⟩

theorem check_fst_false_iff {α : Type} (db : DBase α) (d : Nat) :
    (check_date_exists db d).1 = false ↔
      ∃ ep ∈ ENDPOINTS, dateHasDoc db ep d = false := by
  constructor
  · intro hc
    have hsnd : (check_date_exists db d).2 ≠ [] := by
      intro hnil
      have htrue : (check_date_exists db d).1 = true := by
        show ((check_date_exists db d).2).isEmpty = true
        rw [hnil]
        rfl
      rw [htrue] at hc
      exact Bool.noConfusion hc
    rcases List.exists_mem_of_ne_nil _ hsnd with ⟨n, hn⟩
    rcases (mem_check_missing db d n).mp hn with ⟨ep, hmem, _, hfalse⟩
    exact ⟨ep, hmem, hfalse⟩
  · rintro ⟨ep, hmem, hfalse⟩
    have hn : ep.name ∈ (check_date_exists db d).2 :=
      (mem_check_missing db d ep.name).mpr ⟨ep, hmem, rfl, hfalse⟩
    cases hsnd : (check_date_exists db d).2 with
    | nil =>
      rw [hsnd] at hn
      simp at hn
    | cons a l =>
      show ((check_date_exists db d).2).isEmpty = false
      rw [hsnd]
      rfl

/-- C2: the Completeness Store reports exactly the units whose natural
key is absent.  First, the per-date missing list names exactly the
endpoints without a stored document; second, a date is reported missing
precisely when it lies in the range and some endpoint lacks its record;
third, an empty missing result implies every unit in the range has a
persisted record. -/
theorem gap_detection_exact {α : Type} (db : DBase α) (s e : Nat) :
    (∀ d name, name ∈ (check_date_exists db d).2 ↔
        ∃ ep ∈ ENDPOINTS, ep.name = name ∧ dateHasDoc db ep d = false) ∧
    (∀ d, d ∈ get_missing_dates db s e ↔
        s ≤ d ∧ d ≤ e ∧ ∃ ep ∈ ENDPOINTS, dateHasDoc db ep d = false) ∧
    (get_missing_dates db s e = [] →
        ∀ d, s ≤ d → d ≤ e → ∀ ep ∈ ENDPOINTS, dateHasDoc db ep d = true) := by
  refine ⟨fun d name => mem_check_missing db d name, fun d => ?_, fun hempty d h1 h2 ep hep => ?_⟩
  · simp only [get_missing_dates, List.mem_filter, mem_generate_date_range,
      decide_eq_true_eq, Bool.not_eq_true]
    rw [and_assoc]
    exact and_congr_right fun _ => and_congr_right fun _ => check_fst_false_iff db d
  · by_contra hfalse
    have hd : d ∈ get_missing_dates db s e := by
      simp only [get_missing_dates, List.mem_filter, mem_generate_date_range,
        decide_eq_true_eq, Bool.not_eq_true]
      exact ⟨⟨h1, h2⟩, (check_fst_false_iff db d).mpr
        ⟨ep, hep, by simpa using hfalse⟩⟩
    rw [hempty] at hd
    simp at hd

/-- Witness for C2: one concrete store where exactly the first of two
days is complete. -/
theorem gap_detection_exact_witness :
    ("standard" ∈ (check_date_exists
        (fun _ => ([] : List (SyncDoc Nat))) 3).2 ↔
      ∃ ep ∈ ENDPOINTS, ep.name = "standard" ∧
        dateHasDoc (fun _ => ([] : List (SyncDoc Nat))) ep 3 = false) ∧
    (3 ∈ get_missing_dates (fun _ => ([] : List (SyncDoc Nat))) 2 5 ↔
      2 ≤ 3 ∧ 3 ≤ 5 ∧ ∃ ep ∈ ENDPOINTS,
        dateHasDoc (fun _ => ([] : List (SyncDoc Nat))) ep 3 = false) :=
  ⟨((gap_detection_exact (fun _ => ([] : List (SyncDoc Nat))) 2 5).1 3 "standard"),
   ((gap_detection_exact (fun _ => ([] : List (SyncDoc Nat))) 2 5).2.1 3)⟩

/-- Batch selection of fetch_balancesheet_daily.py main: batch_size is
the minimum of MAX_DATES_PER_RUN and the number of pending dates, and
the batch is the initial slice of the missing-dates list. -/
def selectBatch (maxPerRun : Nat) (missing : List Nat) : List Nat :=
  missing.take (min maxPerRun missing.length)

/-- A calendar date of the backfill script, with year, month and day. -/
structure CalDate where
  y : Nat
  m : Nat
  d : Nat
  deriving DecidableEq

/-- Comparison of two dates, mirroring the lexicographic comparison of
the zero-padded YYYY-MM-DD strings of the source. -/
def dateLe (a b : CalDate) : Bool :=
  if a.y ≠ b.y then decide (a.y < b.y)
  else if a.m ≠ b.m then decide (a.m < b.m)
  else decide (a.d ≤ b.d)

/-- Gregorian leap-year rule used by calendar.monthrange. -/
def isLeap (y : Nat) : Bool :=
  (y % 4 == 0 && y % 100 != 0) || y % 400 == 0

/-- Number of days of a month, as returned by calendar.monthrange. -/
def monthLength (y m : Nat) : Nat :=
  if m = 2 then (if isLeap y then 29 else 28)
  else if m = 4 ∨ m = 6 ∨ m = 9 ∨ m = 11 then 30 else 31

/-- get_month_dates of fetch_balancesheet_backfill.py: all dates of a
month, day 1 to the month length, in order. -/
def get_month_dates (y m : Nat) : List CalDate :=
  (List.range (monthLength y m)).map (fun i => ⟨y, m, i + 1⟩)

/-- Linear month index used to enumerate months. -/
def monthIndex (y m : Nat) : Nat := y * 12 + (m - 1)

/-- Inverse of the month index. -/
def monthOfIndex (k : Nat) : Nat × Nat := (k / 12, k % 12 + 1)

/-- Month enumeration of get_missing_months: from the month of the
start date to the month of the end date, inclusive. -/
def monthsInRange (s e : CalDate) : List (Nat × Nat) :=
  (List.range (monthIndex e.y e.m + 1 - monthIndex s.y s.m)).map
    (fun i => monthOfIndex (monthIndex s.y s.m + i))

/-- Zero padding to two digits, as in the f-string of the source. -/
def pad2 (n : Nat) : String := if n < 10 then "0" ++ toString n else toString n

/-- Zero padding to four digits, as in the f-string of the source. -/
def pad4 (n : Nat) : String :=
  if n < 10 then "000" ++ toString n
  else if n < 100 then "00" ++ toString n
  else if n < 1000 then "0" ++ toString n
  else toString n

/-- Canonical YYYY-MM-DD rendering of a calendar date. -/
def calDateStr (d : CalDate) : String :=
  pad4 d.y ++ "-" ++ pad2 d.m ++ "-" ++ pad2 d.d

/-- Natural key of the backfill script for one date and endpoint. -/
def natKeyB (d : CalDate) (name : String) : String := calDateStr d ++ "-" ++ name

/-- Existence of the Sync Record of one backfill Report Unit. -/
def dateHasDocB {α : Type} (db : DBase α) (ep : Endpoint) (d : CalDate) : Bool :=
  ((db ep.collection).find? (fun x => x.docId = natKeyB d ep.name)).isSome

/-- MongoDBClient.check_date_exists of fetch_balancesheet_backfill.py. -/
def check_date_existsB {α : Type} (db : DBase α) (d : CalDate) : Bool × List String :=
  let missing := (ENDPOINTS.filter (fun ep => ¬ dateHasDocB db ep d)).map (fun ep => ep.name)
  (missing.isEmpty, missing)

/-- get_missing_months of fetch_balancesheet_backfill.py: the months of
the range that still contain an in-range date with a missing endpoint. -/
def get_missing_monthsB {α : Type} (db : DBase α) (s e : CalDate) : List (Nat × Nat) :=
  (monthsInRange s e).filter (fun ym =>
    ((get_month_dates ym.1 ym.2).filter (fun d => dateLe s d && dateLe d e)).any
      (fun d => ¬ (check_date_existsB db d).1))

/-- The batch the backfill main loop processes: all in-range dates of
the first pending month.  The maxDatesPerRun argument mirrors the
MAX_DATES_PER_RUN value that BACKFILL_CONFIG reads from the
environment; main never applies it, so the parameter is unused. -/
def backfillSelect {α : Type} (maxDatesPerRun : Nat) (db : DBase α)
    (s e : CalDate) : List CalDate :=
  match get_missing_monthsB db s e with
  | [] => []
  | ym :: _ => (get_month_dates ym.1 ym.2).filter (fun d => dateLe s d && dateLe d e)

theorem monthLength_le_31 (y m : Nat) : monthLength y m ≤ 31 := by
  unfold monthLength
  split
  · split <;> omega
  · split <;> omega

theorem get_missing_dates_sorted {α : Type} (db : DBase α) (s e : Nat) :
    List.Pairwise (· < ·) (get_missing_dates db s e) := by
  apply List.Pairwise.filter
  unfold generate_date_range
  rw [List.pairwise_map]
  exact (List.pairwise_lt_range _).imp (fun h => by omega)

/-- C3 counterexample: with a batch-size ceiling of 1 configured and an
empty store, the backfill orchestrator selects all 31 days of the first
pending month, every one of them a missing unit, so it attempts far
more than the ceiling. -/
theorem batch_ceiling_counterexample :
    (backfillSelect 1 (fun _ => ([] : List (SyncDoc Nat)))
        ⟨2025, 1, 1⟩ ⟨2025, 1, 31⟩).length = 31 ∧
    ((backfillSelect 1 (fun _ => ([] : List (SyncDoc Nat)))
        ⟨2025, 1, 1⟩ ⟨2025, 1, 31⟩).filter
       (fun d => (check_date_existsB (fun _ => ([] : List (SyncDoc Nat))) d).1)).length = 0 ∧
    ¬ ((backfillSelect 1 (fun _ => ([] : List (SyncDoc Nat)))
        ⟨2025, 1, 1⟩ ⟨2025, 1, 31⟩).length ≤ 1) := by
  refine ⟨by decide, by decide, by decide⟩

/-- C3 amended: the daily orchestrator selects at most the configured
ceiling of dates, the ascending oldest-first initial slice of the
missing dates; the backfill orchestrator ignores its configured
MAX_DATES_PER_RUN (its selection does not depend on it) and instead
takes all in-range dates of the earliest pending month, at most 31. -/
theorem batch_bounded_amended {α : Type} (db : DBase α) (s e maxPerRun : Nat)
    (sD eD : CalDate) (m1 m2 : Nat) :
    (selectBatch maxPerRun (get_missing_dates db s e)).length ≤ maxPerRun ∧
    selectBatch maxPerRun (get_missing_dates db s e) <+: get_missing_dates db s e ∧
    List.Pairwise (· < ·) (get_missing_dates db s e) ∧
    backfillSelect m1 db sD eD = backfillSelect m2 db sD eD ∧
    (backfillSelect m1 db sD eD).length ≤ 31 := by
  refine ⟨?_, ?_, get_missing_dates_sorted db s e, rfl, ?_⟩
  · rw [selectBatch, List.length_take]
    omega
  · exact List.take_prefix _ _
  · unfold backfillSelect
    split
    · simp
    · calc (((get_month_dates _ _).filter _).length)
          ≤ (get_month_dates _ _).length := List.length_filter_le _ _
        _ ≤ 31 := by
            unfold get_month_dates
            rw [List.length_map, List.length_range]
            exact monthLength_le_31 _ _

/-- Retry ceiling of fetch_balancesheet_daily.py: CONFIG max_retries. -/
def CONFIG_max_retries : Nat := 3

/-- The per-endpoint retry loop of process_date: try attempts in order
until a payload arrives or the remaining budget is exhausted; return
how many fetch attempts were made and the payload, if any. -/
def retryFetch {α : Type} (f : Nat → Option (List α)) : Nat → Nat → Nat × Option (List α)
  | _, 0 => (0, none)
  | attempt, rem + 1 =>
    match f attempt with
    | some d => (1, some d)
    | none =>
      let r := retryFetch f (attempt + 1) rem
      (r.1 + 1, r.2)

/-- State threaded through the endpoint loop of process_date: the
database, the success counter, and how many fetch attempts each
endpoint name has consumed. -/
structure DayState (α : Type) where
  db : DBase α
  successCount : Nat
  attempts : String → Nat

/-- Replace one collection of the database. -/
def updateColl {α : Type} (db : DBase α) (c : String) (coll : List (SyncDoc α)) : DBase α :=
  fun x => if x = c then coll else db x

/-- One iteration of the endpoint loop of process_date in
fetch_balancesheet_daily.py: skip the endpoint when it is not missing,
otherwise run the retry loop and, on success, save the payload. -/
def processEndpoint {α : Type} (f : String → Nat → Option (List α)) (now : Nat)
    (d : Nat) (missing : List String) (st : DayState α) (ep : Endpoint) : DayState α :=
  if ep.name ∈ missing then
    let r := retryFetch (f ep.name) 1 CONFIG_max_retries
    let att := fun k => if k = ep.name then st.attempts k + r.1 else st.attempts k
    match r.2 with
    | some data =>
        ⟨updateColl st.db ep.collection
            (save_data "backfill-auto-github" now (st.db ep.collection) data ep.name (dayStr d)),
         st.successCount + 1, att⟩
    | none => ⟨st.db, st.successCount, att⟩
  else ⟨st.db, st.successCount + 1, st.attempts⟩

/-- process_date of fetch_balancesheet_daily.py: return early when the
date is already complete, otherwise loop over the endpoints, and report
whether every endpoint ended successfully. -/
def process_date {α : Type} (f : String → Nat → Option (List α)) (now : Nat)
    (db : DBase α) (d : Nat) : DayState α × Bool :=
  let ce := check_date_exists db d
  if ce.1 then (⟨db, 0, fun _ => 0⟩, true)
  else
    let st := ENDPOINTS.foldl (processEndpoint f now d ce.2) ⟨db, 0, fun _ => 0⟩
    (st, st.successCount == ENDPOINTS.length)

/-- The date loop of the daily main function: process every date of the
batch in order, counting processed and successful dates; a failed date
never aborts the loop. -/
def runBatch {α : Type} (f : Nat → String → Nat → Option (List α)) (now : Nat)
    (db : DBase α) (dates : List Nat) : DBase α × Nat × Nat :=
  dates.foldl (fun acc d =>
    let r := process_date (f d) now acc.1 d
    (r.1.db, acc.2.1 + 1, acc.2.2 + (if r.2 then 1 else 0))) (db, 0, 0)

/-- Fetch attempts one endpoint consumes inside process_date. -/
def epAttempts {α : Type} (f : String → Nat → Option (List α)) (missing : List String)
    (ep : Endpoint) : Nat :=
  if ep.name ∈ missing then (retryFetch (f ep.name) 1 CONFIG_max_retries).1 else 0

theorem retryFetch_allFail {α : Type} (f : Nat → Option (List α))
    (hf : ∀ i, f i = none) : ∀ (rem a : Nat), retryFetch f a rem = (rem, none) := by
  intro rem
  induction rem with
  | zero => intro a; rfl
  | succ n ih =>
    intro a
    simp only [retryFetch, hf a, ih (a + 1)]

theorem retryFetch_pos {α : Type} (f : Nat → Option (List α)) (a rem : Nat)
    (h : 1 ≤ rem) : 1 ≤ (retryFetch f a rem).1 := by
  cases rem with
  | zero => omega
  | succ n =>
    simp only [retryFetch]
    cases f a <;> simp

theorem processEndpoint_attempts {α : Type} (f : String → Nat → Option (List α))
    (now d : Nat) (missing : List String) (st : DayState α) (ep : Endpoint) (k : String) :
    (processEndpoint f now d missing st ep).attempts k
      = st.attempts k + (if ep.name = k then epAttempts f missing ep else 0) := by
  unfold processEndpoint epAttempts
  by_cases hm : ep.name ∈ missing
  · simp only [hm, if_true]
    rcases hr : (retryFetch (f ep.name) 1 CONFIG_max_retries).2 with _ | data
    · simp only [hr]
      by_cases hk : ep.name = k
      · simp [hk]
      · simp only [hk, if_false]
        simp only [show (k = ep.name) = False from eq_false (fun hke => hk hke.symm), if_false]
        omega
    · simp only [hr]
      by_cases hk : ep.name = k
      · simp [hk]
      · simp only [hk, if_false]
        simp only [show (k = ep.name) = False from eq_false (fun hke => hk hke.symm), if_false]
        omega
  · simp [hm]

theorem foldl_attempts {α : Type} (f : String → Nat → Option (List α))
    (now d : Nat) (missing : List String) (l : List Endpoint) (st : DayState α) (k : String) :
    ((l.foldl (processEndpoint f now d missing) st).attempts) k
      = st.attempts k
        + ((l.filter (fun ep => ep.name = k)).map (epAttempts f missing)).sum := by
  induction l generalizing st with
  | nil => simp
  | cons ep l ih =>
    rw [List.foldl_cons, ih, processEndpoint_attempts]
    by_cases h : ep.name = k
    · simp [List.filter_cons, h, Nat.add_assoc]
    · simp [List.filter_cons, h]

theorem processEndpoint_db_frame {α : Type} (f : String → Nat → Option (List α))
    (now d : Nat) (missing : List String) (st : DayState α) (ep : Endpoint) (c : String)
    (h : ep.collection = c →
        ep.name ∉ missing ∨ (retryFetch (f ep.name) 1 CONFIG_max_retries).2 = none) :
    (processEndpoint f now d missing st ep).db c = st.db c := by
  unfold processEndpoint
  by_cases hm : ep.name ∈ missing
  · simp only [hm, if_true]
    rcases hr : (retryFetch (f ep.name) 1 CONFIG_max_retries).2 with _ | data
    · simp [hr]
    · simp only [hr, updateColl]
      by_cases hc : c = ep.collection
      · rcases h hc.symm with h1 | h1
        · exact absurd hm h1
        · rw [hr] at h1
          exact absurd h1 (by simp)
      · simp [hc]
  · simp [hm]

theorem foldl_db_frame {α : Type} (f : String → Nat → Option (List α))
    (now d : Nat) (missing : List String) (l : List Endpoint) (st : DayState α) (c : String)
    (h : ∀ ep ∈ l, ep.collection = c →
        ep.name ∉ missing ∨ (retryFetch (f ep.name) 1 CONFIG_max_retries).2 = none) :
    ((l.foldl (processEndpoint f now d missing) st).db) c = st.db c := by
  induction l generalizing st with
  | nil => rfl
  | cons ep l ih =>
    rw [List.foldl_cons, ih _ (fun e he => h e (List.mem_cons_of_mem ep he)),
        processEndpoint_db_frame f now d missing st ep c (h ep (List.mem_cons_self ep l))]

theorem endpoint_names_inj (e1 e2 : Endpoint) (h1 : e1 ∈ ENDPOINTS)
    (h2 : e2 ∈ ENDPOINTS) (hn : e1.name = e2.name) : e1 = e2 := by
  fin_cases h1 <;> fin_cases h2 <;> simp_all

theorem endpoint_collections_inj (e1 e2 : Endpoint) (h1 : e1 ∈ ENDPOINTS)
    (h2 : e2 ∈ ENDPOINTS) (hc : e1.collection = e2.collection) : e1 = e2 := by
  fin_cases h1 <;> fin_cases h2 <;> simp_all

theorem filter_name_endpoints (ep : Endpoint) (hep : ep ∈ ENDPOINTS) :
    ENDPOINTS.filter (fun e2 => e2.name = ep.name) = [ep] := by
  fin_cases hep <;> rfl

theorem runBatch_length_aux {α : Type} (f : Nat → String → Nat → Option (List α))
    (now : Nat) (dates : List Nat) :
    ∀ acc : DBase α × Nat × Nat,
      (dates.foldl (fun acc d =>
        let r := process_date (f d) now acc.1 d
        (r.1.db, acc.2.1 + 1, acc.2.2 + (if r.2 then 1 else 0))) acc).2.1
        = acc.2.1 + dates.length := by
  induction dates with
  | nil => intro acc; simp
  | cons d ds ih =>
    intro acc
    rw [List.foldl_cons, ih]
    simp only [List.length_cons]
    omega

/-- C4: for a missing unit whose fetch always fails, process_date makes
exactly CONFIG max_retries fetch attempts for that endpoint, leaves the
unit missing, still gives every other missing endpoint its fetch
attempts, and the date loop of main always processes the whole batch. -/
theorem retry_ceiling_exact {α : Type} (f : String → Nat → Option (List α))
    (now : Nat) (db : DBase α) (d : Nat) (ep : Endpoint)
    (hep : ep ∈ ENDPOINTS)
    (hmiss : dateHasDoc db ep d = false)
    (hfail : ∀ i, f ep.name i = none) :
    (process_date f now db d).1.attempts ep.name = CONFIG_max_retries ∧
    dateHasDoc (process_date f now db d).1.db ep d = false ∧
    (∀ ep2 ∈ ENDPOINTS, dateHasDoc db ep2 d = false →
        1 ≤ (process_date f now db d).1.attempts ep2.name) ∧
    (∀ (g : Nat → String → Nat → Option (List α)) (db2 : DBase α) (dates : List Nat),
        (runBatch g now db2 dates).2.1 = dates.length) := by
  have hce : (check_date_exists db d).1 = false :=
    (check_fst_false_iff db d).mpr ⟨ep, hep, hmiss⟩
  have hmem : ep.name ∈ (check_date_exists db d).2 :=
    (mem_check_missing db d ep.name).mpr ⟨ep, hep, rfl, hmiss⟩
  have h1 : (process_date f now db d).1
      = ENDPOINTS.foldl (processEndpoint f now d (check_date_exists db d).2)
          ⟨db, 0, fun _ => 0⟩ := by
    simp [process_date, hce]
  refine ⟨?_, ?_, ?_, ?_⟩
  · rw [h1, foldl_attempts, filter_name_endpoints ep hep]
    simp [epAttempts, hmem, retryFetch_allFail (f ep.name) hfail]
  · rw [h1]
    have hframe : ((ENDPOINTS.foldl (processEndpoint f now d (check_date_exists db d).2)
        ⟨db, 0, fun _ => 0⟩).db) ep.collection = db ep.collection := by
      apply foldl_db_frame
      intro e he hc
      right
      rw [endpoint_collections_inj e ep he hep hc,
          retryFetch_allFail (f ep.name) hfail]
    unfold dateHasDoc
    rw [hframe]
    exact hmiss
  · intro ep2 hep2 hm2
    have hmem2 : ep2.name ∈ (check_date_exists db d).2 :=
      (mem_check_missing db d ep2.name).mpr ⟨ep2, hep2, rfl, hm2⟩
    rw [h1, foldl_attempts, filter_name_endpoints ep2 hep2]
    simp only [List.map_cons, List.map_nil, List.sum_cons, List.sum_nil, epAttempts,
      hmem2, if_true]
    have := retryFetch_pos (f ep2.name) 1 CONFIG_max_retries (by decide)
    omega
  · intro g db2 dates
    unfold runBatch
    rw [runBatch_length_aux]
    simp

/-- Witness for C4 at the always-failing fetch oracle over an empty
store. -/
theorem retry_ceiling_exact_witness :
    (process_date (fun _ _ => (none : Option (List Nat))) 0 (fun _ => []) 0).1.attempts
        "totals" = CONFIG_max_retries ∧
    dateHasDoc (process_date (fun _ _ => (none : Option (List Nat))) 0 (fun _ => []) 0).1.db
        ⟨"totals", "/accounting/balanceSheet/totals", "balance_totals"⟩ 0 = false ∧
    (∀ ep2 ∈ ENDPOINTS,
        dateHasDoc (fun _ => ([] : List (SyncDoc Nat))) ep2 0 = false →
        1 ≤ (process_date (fun _ _ => (none : Option (List Nat))) 0
              (fun _ => []) 0).1.attempts ep2.name) ∧
    (∀ (g : Nat → String → Nat → Option (List Nat)) (db2 : DBase Nat) (dates : List Nat),
        (runBatch g 0 db2 dates).2.1 = dates.length) :=
  retry_ceiling_exact (fun _ _ => none) 0 (fun _ => []) 0
    ⟨"totals", "/accounting/balanceSheet/totals", "balance_totals"⟩
    (by decide) (by decide) (fun i => rfl)

/-- C6: a Report Unit already present when the batch is selected is
skipped: a complete date returns immediately with the store unchanged
and no fetch attempts, and a present endpoint of a partially missing
date consumes no fetch attempt and keeps its collection untouched. -/
theorem skip_present_unit {α : Type} (f : String → Nat → Option (List α))
    (now : Nat) (db : DBase α) (d : Nat) :
    ((check_date_exists db d).1 = true →
        process_date f now db d = (⟨db, 0, fun _ => 0⟩, true)) ∧
    (∀ ep ∈ ENDPOINTS, dateHasDoc db ep d = true →
        (process_date f now db d).1.attempts ep.name = 0 ∧
        (process_date f now db d).1.db ep.collection = db ep.collection) := by
  constructor
  · intro h
    simp [process_date, h]
  · intro ep hep hpresent
    have hnotmem : ep.name ∉ (check_date_exists db d).2 := by
      intro hmem
      rcases (mem_check_missing db d ep.name).mp hmem with ⟨e2, he2, hname, hfalse⟩
      rw [endpoint_names_inj e2 ep he2 hep hname, hpresent] at hfalse
      exact Bool.noConfusion hfalse
    rcases hc : (check_date_exists db d).1 with _ | _
    · have h1 : (process_date f now db d).1
          = ENDPOINTS.foldl (processEndpoint f now d (check_date_exists db d).2)
              ⟨db, 0, fun _ => 0⟩ := by
        simp [process_date, hc]
      constructor
      · rw [h1, foldl_attempts, filter_name_endpoints ep hep]
        simp [epAttempts, hnotmem]
      · rw [h1]
        apply foldl_db_frame
        intro e he hcoll
        left
        rw [endpoint_collections_inj e ep he hep hcoll]
        exact hnotmem
    · have h1 : process_date f now db d = (⟨db, 0, fun _ => 0⟩, true) := by
        simp [process_date, hc]
      rw [h1]
      exact ⟨rfl, rfl⟩

/-- Witness for C6 over a store holding only the totals record of the
day. -/
theorem skip_present_unit_witness :
    (process_date (fun _ _ => (none : Option (List Nat))) 5
        (fun c => if c = "balance_totals"
          then [builtDoc "automatic" 1 ([] : List Nat) "totals" "0"] else []) 0).1.attempts
        "totals" = 0 ∧
    (process_date (fun _ _ => (none : Option (List Nat))) 5
        (fun c => if c = "balance_totals"
          then [builtDoc "automatic" 1 ([] : List Nat) "totals" "0"] else []) 0).1.db
        "balance_totals"
      = [builtDoc "automatic" 1 ([] : List Nat) "totals" "0"] :=
  (skip_present_unit (fun _ _ => none) 5
      (fun c => if c = "balance_totals"
        then [builtDoc "automatic" 1 ([] : List Nat) "totals" "0"] else []) 0).2
    ⟨"totals", "/accounting/balanceSheet/totals", "balance_totals"⟩
    (by decide) (by decide)

/-- A field value of an invoices-by-month document.  Numbers are exact
rationals, timestamps are naturals, and the rawData field embeds the
original upstream record. -/
inductive FieldVal where
  | str (s : String)
  | int (n : Int)
  | num (q : ℚ)
  | time (t : Nat)
  | obj (fields : List (String × FieldVal))

/-- A MongoDB document as a list of named fields. -/
abbrev MDoc := List (String × FieldVal)

/-- Read a field of a document: first binding of the name. -/
def getField (k : String) : MDoc → Option FieldVal
  | [] => none
  | (f, v) :: rest => if f = k then some v else getField k rest

/-- Set one field: overwrite the first binding or append a new one. -/
def setField (k : String) (v : FieldVal) : MDoc → MDoc
  | [] => [(k, v)]
  | (f, w) :: rest => if f = k then (k, v) :: rest else (f, w) :: setField k v rest

/-- Apply a MongoDB set-update: set every field of the update document,
leaving all other fields of the target untouched. -/
def setFields (upd : MDoc) (doc : MDoc) : MDoc :=
  upd.foldl (fun d kv => setField kv.1 kv.2 d) doc

/-- Test of the update_one filter of save_invoices: the month field of
the document holds the given string. -/
def monthMatches (fk fv : String) (d : MDoc) : Bool :=
  match getField fk d with
  | some (FieldVal.str s) => s == fv
  | _ => false

/-- update_one with a set-update and upsert: update the first matching
document in place, or insert a fresh document built from the filter
equality field and the update. -/
def updateOneSet (fk fv : String) (upd : MDoc) : List MDoc → List MDoc
  | [] => [setFields upd [(fk, FieldVal.str fv)]]
  | d :: ds =>
    if monthMatches fk fv d then setFields upd d :: ds
    else d :: updateOneSet fk fv upd ds

/-- dict.get of Python with a default value. -/
def jget (o : MDoc) (k : String) (dflt : FieldVal) : FieldVal :=
  (getField k o).getD dflt

/-- The YYYY-MM month key of fetch_invoices_monthly.py. -/
def monthKey (year month : Nat) : String := toString year ++ "-" ++ pad2 month

/-- The document built by MongoDBClient.save_invoices from the first
record of the fetched payload, in the field order of the source. -/
def invoiceDocument (year month now : Nat) (monthData : MDoc) : MDoc :=
  [("month", FieldVal.str (monthKey year month)),
   ("year", FieldVal.int year),
   ("monthNumber", FieldVal.int month),
   ("monthName", jget monthData "month" (FieldVal.str (monthKey year month))),
   ("total", jget monthData "total" (FieldVal.num 0)),
   ("returns", jget monthData "returns" (FieldVal.num 0)),
   ("returnsPercentage", jget monthData "returnsPercentage" (FieldVal.num 0)),
   ("net", jget monthData "net" (FieldVal.num 0)),
   ("netChangeYoYPercentage", jget monthData "netChangeYoYPercentage" (FieldVal.num 0)),
   ("margin", jget monthData "margin" (FieldVal.num 0)),
   ("marginChangeYoYPercentage", jget monthData "marginChangeYoYPercentage" (FieldVal.num 0)),
   ("discounts", jget monthData "discounts" (FieldVal.num 0)),
   ("discountsPercentage", jget monthData "discountsPercentage" (FieldVal.num 0)),
   ("quantity", jget monthData "quantity" (FieldVal.num 0)),
   ("insertedAt", FieldVal.time now),
   ("rawData", FieldVal.obj monthData)]

/-- MongoDBClient.save_invoices of fetch_invoices_monthly.py: reject an
empty payload, otherwise apply the keyed set-update upsert. -/
def save_invoices (year month now : Nat) (data : List MDoc) (coll : List MDoc) :
    Option (List MDoc) :=
  match data with
  | [] => none
  | monthData :: _ =>
      some (updateOneSet "month" (monthKey year month)
        (invoiceDocument year month now monthData) coll)

theorem getField_setField_self (k : String) (v : FieldVal) (d : MDoc) :
    getField k (setField k v d) = some v := by
  induction d with
  | nil => simp [setField, getField]
  | cons fw rest ih =>
    rcases fw with ⟨f, w⟩
    by_cases h : f = k
    · simp [setField, getField, h]
    · simp [setField, getField, h, ih]

theorem getField_setField_ne (k k2 : String) (hne : k ≠ k2) (v : FieldVal) (d : MDoc) :
    getField k (setField k2 v d) = getField k d := by
  induction d with
  | nil => simp [setField, getField, Ne.symm hne]
  | cons fw rest ih =>
    rcases fw with ⟨f, w⟩
    by_cases h : f = k2
    · subst h
      simp [setField, getField, Ne.symm hne]
    · simp only [setField, h, if_false]
      by_cases h2 : f = k
      · simp [getField, h2]
      · simp [getField, h2, ih]

theorem getField_setFields_not_mem (k : String) (upd : MDoc) (d : MDoc)
    (h : k ∉ upd.map Prod.fst) :
    getField k (setFields upd d) = getField k d := by
  induction upd generalizing d with
  | nil => rfl
  | cons kv rest ih =>
    simp only [List.map_cons, List.mem_cons] at h
    push_neg at h
    show getField k (setFields rest (setField kv.1 kv.2 d)) = getField k d
    rw [ih _ h.2, getField_setField_ne k kv.1 h.1]

theorem getField_setFields_mem (k : String) (upd : MDoc) (d : MDoc)
    (hnd : (upd.map Prod.fst).Nodup) (h : k ∈ upd.map Prod.fst) :
    getField k (setFields upd d) = getField k upd := by
  induction upd generalizing d with
  | nil => simp at h
  | cons kv rest ih =>
    simp only [List.map_cons, List.mem_cons] at h
    simp only [List.map_cons, List.nodup_cons] at hnd
    show getField k (setFields rest (setField kv.1 kv.2 d)) = getField k (kv :: rest)
    rcases h with h | h
    · subst h
      rw [getField_setFields_not_mem _ _ _ hnd.1, getField_setField_self]
      simp [getField]
    · have hne : kv.1 ≠ k := by
        intro heq
        rw [heq] at hnd
        exact hnd.1 h
      rw [ih _ hnd.2 h]
      simp [getField, hne]

/-- C5 counterexample: a save through save_invoices applied to a store
whose existing document for the month carries an extra field leaves
that field in place, although it is not among the fields the save
writes; so the main invoices write path is not a full replace. -/
theorem set_update_counterexample :
    (match save_invoices 2025 1 99 [[("total", FieldVal.num 5)]]
        [[("month", FieldVal.str "2025-01"), ("legacy", FieldVal.int 7)]] with
      | some (d :: _) => getField "legacy" d
      | _ => none) = some (FieldVal.int 7) ∧
    "legacy" ∉ (invoiceDocument 2025 1 99 [("total", FieldVal.num 5)]).map Prod.fst := by
  constructor
  · rfl
  · decide

/-- C5 amended: the balance-sheet write paths are atomic full
replace-or-inserts keyed on the _id natural key, the stored document
being exactly the one the save builds; the invoices write path instead
applies a set-update upsert keyed on the month field, which overwrites
every field it writes but preserves any other pre-existing field of the
prior document. -/
theorem replace_vs_set_amended {α : Type} [DecidableEq α] :
    (∀ (src : String) (now : Nat) (coll : List (SyncDoc α)) (data : List α)
        (endpointName dateStr : String),
        findOne (dateStr ++ "-" ++ endpointName)
            (save_data src now coll data endpointName dateStr)
          = some (builtDoc src now data endpointName dateStr)) ∧
    (∀ (year month now : Nat) (monthData firstDoc : MDoc) (rest : List MDoc),
        monthMatches "month" (monthKey year month) firstDoc = true →
        save_invoices year month now [monthData] (firstDoc :: rest)
          = some (setFields (invoiceDocument year month now monthData) firstDoc :: rest)) ∧
    (∀ (year month now : Nat) (monthData firstDoc : MDoc) (k : String),
        (k ∉ (invoiceDocument year month now monthData).map Prod.fst →
          getField k (setFields (invoiceDocument year month now monthData) firstDoc)
            = getField k firstDoc) ∧
        (k ∈ (invoiceDocument year month now monthData).map Prod.fst →
          getField k (setFields (invoiceDocument year month now monthData) firstDoc)
            = getField k (invoiceDocument year month now monthData))) := by
  refine ⟨?_, ?_, ?_⟩
  · intro src now coll data endpointName dateStr
    exact findOne_replaceOne (dateStr ++ "-" ++ endpointName)
      (builtDoc src now data endpointName dateStr) rfl _
  · intro year month now monthData firstDoc rest h
    simp [save_invoices, updateOneSet, h]
  · intro year month now monthData firstDoc k
    refine ⟨fun h => getField_setFields_not_mem k _ _ h, fun h => ?_⟩
    apply getField_setFields_mem k _ _ _ h
    show ((invoiceDocument year month now monthData).map Prod.fst).Nodup
    have hkeys : (invoiceDocument year month now monthData).map Prod.fst
        = ["month", "year", "monthNumber", "monthName", "total", "returns",
           "returnsPercentage", "net", "netChangeYoYPercentage", "margin",
           "marginChangeYoYPercentage", "discounts", "discountsPercentage",
           "quantity", "insertedAt", "rawData"] := rfl
    rw [hkeys]
    decide

/-- Witness for C5 amended at a concrete store, month and payload. -/
theorem replace_vs_set_amended_witness :
    save_invoices 2025 1 99 [[("total", FieldVal.num 5)]]
        [[("month", FieldVal.str "2025-01"), ("legacy", FieldVal.int 7)]]
      = some [setFields (invoiceDocument 2025 1 99 [("total", FieldVal.num 5)])
          [("month", FieldVal.str "2025-01"), ("legacy", FieldVal.int 7)]] ∧
    getField "legacy" (setFields (invoiceDocument 2025 1 99 [("total", FieldVal.num 5)])
        [("month", FieldVal.str "2025-01"), ("legacy", FieldVal.int 7)])
      = getField "legacy" [("month", FieldVal.str "2025-01"), ("legacy", FieldVal.int 7)] :=
  ⟨(replace_vs_set_amended (α := Nat)).2.1 2025 1 99 [("total", FieldVal.num 5)]
      [("month", FieldVal.str "2025-01"), ("legacy", FieldVal.int 7)] [] (by rfl),
   ((replace_vs_set_amended (α := Nat)).2.2 2025 1 99 [("total", FieldVal.num 5)]
      [("month", FieldVal.str "2025-01"), ("legacy", FieldVal.int 7)] "legacy").1
     (by decide)⟩

/-- HTTP statuses retried at transport level by the Retry strategy that
LaudusAPIClient of fetch_balancesheet_manual.py mounts on its session. -/
def STATUS_FORCELIST : List Nat := [429, 500, 502, 503, 504]

/-- Transport-level retry budget of that Retry strategy: total = 2. -/
def RETRY_TOTAL : Nat := 2

/-- One session request through the mounted HTTPAdapter: issue attempts
in order, retrying while the returned status is in the forcelist and
budget remains; report how many outbound attempts were issued together
with the final response (status and body). -/
def adapterRun {α : Type} (responses : Nat → Nat × α) : Nat → Nat → Nat × (Nat × α)
  | idx, 0 => (1, responses idx)
  | idx, budget + 1 =>
    if (responses idx).1 ∈ STATUS_FORCELIST then
      let r := adapterRun responses (idx + 1) budget
      (r.1 + 1, r.2)
    else (1, responses idx)

/-- A single session.get or session.post of the manual client. -/
def sessionRun {α : Type} (responses : Nat → Nat × α) : Nat × (Nat × α) :=
  adapterRun responses 0 RETRY_TOTAL

/-- fetch_balance_sheet of fetch_balancesheet_manual.py at the status
level: one session call; raise_for_status turns an error status of the
final response into an exception, which the handler maps to None.
When the adapter also exhausts its budget the requests layer raises
instead of returning, which the same generic handler maps to None, so
the observable result coincides. -/
def manualFetch {α : Type} (responses : Nat → Nat × α) : Option α :=
  let resp := (sessionRun responses).2
  if resp.1 < 400 then some resp.2 else none

/-- Number of outbound attempts a single manualFetch invocation issues. -/
def manualFetchRequests {α : Type} (responses : Nat → Nat × α) : Nat :=
  (sessionRun responses).1

theorem adapterRun_le {α : Type} (responses : Nat → Nat × α) :
    ∀ (budget idx : Nat), (adapterRun responses idx budget).1 ≤ budget + 1 := by
  intro budget
  induction budget with
  | zero => intro idx; simp [adapterRun]
  | succ n ih =>
    intro idx
    simp only [adapterRun]
    split
    · have := ih (idx + 1)
      omega
    · omega

/-- C7 counterexample: with the upstream answering 500 every time, a
single invocation of the manual fetch issues three outbound request
attempts, not one, because the session adapter retries twice at
transport level before the failure is surfaced as None. -/
theorem single_attempt_counterexample :
    manualFetchRequests (fun _ => ((500 : Nat), (0 : Nat))) = 3 ∧
    (3 : Nat) ≠ 1 ∧
    manualFetch (fun _ => ((500 : Nat), (0 : Nat))) = none := by
  refine ⟨rfl, by decide, rfl⟩

/-- C7 amended: in the manual client a fetch or credential request goes
through a session whose adapter may retry up to RETRY_TOTAL extra times
on the forcelist statuses, so one invocation issues at most three and
at least one outbound attempt, exactly one when the first response is
not a forcelist status; the outcome is surfaced to the caller as an
explicit Option with no application-level retry inside the call. -/
theorem manual_fetch_attempts_amended {α : Type} (responses : Nat → Nat × α) :
    manualFetchRequests responses ≤ 1 + RETRY_TOTAL ∧
    1 ≤ manualFetchRequests responses ∧
    ((responses 0).1 ∉ STATUS_FORCELIST → manualFetchRequests responses = 1) ∧
    (400 ≤ ((sessionRun responses).2).1 → manualFetch responses = none) ∧
    (((sessionRun responses).2).1 < 400 →
        manualFetch responses = some ((sessionRun responses).2).2) := by
  refine ⟨?_, ?_, ?_, ?_, ?_⟩
  · have := adapterRun_le responses RETRY_TOTAL 0
    simpa [manualFetchRequests, sessionRun, Nat.add_comm] using this
  · show 1 ≤ (adapterRun responses 0 RETRY_TOTAL).1
    simp only [RETRY_TOTAL, adapterRun]
    split
    · omega
    · omega
  · intro h
    show (adapterRun responses 0 RETRY_TOTAL).1 = 1
    simp only [RETRY_TOTAL, adapterRun]
    rw [if_neg (by simpa using h)]
  · intro h
    simp only [manualFetch]
    rw [if_neg (by omega)]
  · intro h
    simp only [manualFetch]
    rw [if_pos h]

/-- Witness for C7 amended at an upstream that answers 200 at once. -/
theorem manual_fetch_attempts_amended_witness :
    manualFetchRequests (fun _ => ((200 : Nat), (7 : Nat))) ≤ 1 + RETRY_TOTAL ∧
    1 ≤ manualFetchRequests (fun _ => ((200 : Nat), (7 : Nat))) ∧
    ((((fun _ => ((200 : Nat), (7 : Nat))) 0 : Nat × Nat)).1 ∉ STATUS_FORCELIST →
        manualFetchRequests (fun _ => ((200 : Nat), (7 : Nat))) = 1) ∧
    (400 ≤ ((sessionRun (fun _ => ((200 : Nat), (7 : Nat)))).2).1 →
        manualFetch (fun _ => ((200 : Nat), (7 : Nat))) = none) ∧
    (((sessionRun (fun _ => ((200 : Nat), (7 : Nat)))).2).1 < 400 →
        manualFetch (fun _ => ((200 : Nat), (7 : Nat)))
          = some ((sessionRun (fun _ => ((200 : Nat), (7 : Nat)))).2).2) :=
  manual_fetch_attempts_amended (fun _ => ((200 : Nat), (7 : Nat)))

/-- A parsed JSON payload of a report endpoint: an array of records or
one single object. -/
inductive JsonPayload (α : Type) where
  | arr (xs : List α)
  | obj (o : α)
  deriving DecidableEq

/-- Outcome of the one outbound call of a plain-session fetch. -/
inductive Upstream (α : Type) where
  | resp (status : Nat) (payload : JsonPayload α)
  | timeout
  | transportFail

/-- fetch_balance_sheet of fetch_balancesheet.py, equally the invoices
fetch of fetch_invoices_monthly.py: on a success status the parsed
response.json() is returned unchanged; timeouts, HTTP error statuses
and transport errors are surfaced as None. -/
def fetch_balance_sheet {α : Type} (u : Upstream α) : Option (JsonPayload α) :=
  match u with
  | Upstream.resp s p => if s < 400 then some p else none
  | Upstream.timeout => none
  | Upstream.transportFail => none

/-- C8 counterexample: for a successful response carrying one single
object, fetch returns that object as is; the result is not the
one-element sequence the wrapping claim announces. -/
theorem no_wrap_counterexample :
    fetch_balance_sheet (Upstream.resp 200 (JsonPayload.obj (0 : Nat)))
      = some (JsonPayload.obj 0) ∧
    some (JsonPayload.obj (0 : Nat)) ≠ some (JsonPayload.arr [0]) := by
  refine ⟨rfl, by decide⟩

/-- C8 amended: for every successful upstream response the fetch
returns the parsed payload unchanged, an array in its original order
and a single object unwrapped; every failure outcome is None. -/
theorem fetch_returns_payload_amended {α : Type} (s : Nat) (p : JsonPayload α)
    (xs : List α) (o : α) :
    (s < 400 → fetch_balance_sheet (Upstream.resp s p) = some p) ∧
    (400 ≤ s → fetch_balance_sheet (Upstream.resp s p) = none) ∧
    fetch_balance_sheet (Upstream.timeout : Upstream α) = none ∧
    fetch_balance_sheet (Upstream.transportFail : Upstream α) = none ∧
    (s < 400 → fetch_balance_sheet (Upstream.resp s (JsonPayload.arr xs))
        = some (JsonPayload.arr xs)) ∧
    (s < 400 → fetch_balance_sheet (Upstream.resp s (JsonPayload.obj o))
        = some (JsonPayload.obj o)) := by
  refine ⟨fun h => ?_, fun h => ?_, rfl, rfl, fun h => ?_, fun h => ?_⟩
  · simp [fetch_balance_sheet, h]
  · simp [fetch_balance_sheet]
    omega
  · simp [fetch_balance_sheet, h]
  · simp [fetch_balance_sheet, h]

/-- Witness for C8 amended at a 200 response with a two-record array. -/
theorem fetch_returns_payload_amended_witness :
    fetch_balance_sheet (Upstream.resp 200 (JsonPayload.arr [(1 : Nat), 2]))
      = some (JsonPayload.arr [1, 2]) :=
  (fetch_returns_payload_amended 200 (JsonPayload.arr [(1 : Nat), 2]) [1, 2] 1).1
    (by decide)

/-- Final exit code of fetch_balancesheet.py main: 1 on missing
configuration, failed authentication or failed store connection,
otherwise 0 exactly when every endpoint completed. -/
def fetch_main_exit (configOk authOk connectOk : Bool)
    (successCount totalCount : Nat) : Nat :=
  if configOk = false then 1
  else if authOk = false then 1
  else if connectOk = false then 1
  else if successCount = totalCount then 0 else 1

/-- Final exit code of fetch_balancesheet_daily.py main: 1 on the three
hard failures, otherwise 0 no matter how many batch dates failed. -/
def daily_main_exit (configOk authOk connectOk : Bool)
    (successful failed : Nat) : Nat :=
  if configOk = false then 1
  else if authOk = false then 1
  else if connectOk = false then 1
  else 0

/-- C9 counterexample: fetch_balancesheet.py with one of three
endpoints completed made partial progress with work remaining, yet its
exit code is 1, not the success exit the claim announces. -/
theorem partial_progress_exit_counterexample :
    fetch_main_exit true true true 1 3 = 1 ∧ (1 : Nat) ≠ 0 := by
  refine ⟨rfl, by decide⟩

/-- C9 amended: the daily batch orchestrator exits 0 once processing is
reached, partial progress included; the yesterday fetcher exits 0 only
when every endpoint completed and 1 otherwise; and both exit 1 on
missing configuration, failed authentication or an unreachable store. -/
theorem exit_codes_amended (configOk authOk connectOk : Bool)
    (s t suc fail : Nat) :
    (configOk = true → authOk = true → connectOk = true →
        daily_main_exit configOk authOk connectOk suc fail = 0) ∧
    (configOk = true → authOk = true → connectOk = true →
        (fetch_main_exit configOk authOk connectOk s t = 0 ↔ s = t)) ∧
    ((configOk = false ∨ authOk = false ∨ connectOk = false) →
        fetch_main_exit configOk authOk connectOk s t = 1 ∧
        daily_main_exit configOk authOk connectOk suc fail = 1) := by
  refine ⟨fun h1 h2 h3 => ?_, fun h1 h2 h3 => ?_, fun h => ?_⟩
  · simp [daily_main_exit, h1, h2, h3]
  · by_cases hst : s = t <;> simp [fetch_main_exit, h1, h2, h3, hst]
  · rcases h with h | h | h <;>
      cases configOk <;> cases authOk <;> cases connectOk <;>
      simp_all [fetch_main_exit, daily_main_exit]

/-- Witness for C9 amended: all phases succeed and the batch is
entirely processed. -/
theorem exit_codes_amended_witness :
    daily_main_exit true true true 5 2 = 0 ∧
    (fetch_main_exit true true true 3 3 = 0 ↔ (3 : Nat) = 3) :=
  ⟨(exit_codes_amended true true true 3 3 5 2).1 rfl rfl rfl,
   (exit_codes_amended true true true 3 3 5 2).2.1 rfl rfl rfl⟩

/-- One row of the 8-columns balance, with the fields that
process_balance_sheet of generate_balance_general.py reads.  The asset
and liability columns may be absent, which the source coerces to 0. -/
structure Account where
  accountCode : String
  accountName : String
  asset : Option ℚ
  liability : Option ℚ

/-- Coercion of account.get of the source: an absent or null column
counts as 0. -/
def colVal (v : Option ℚ) : ℚ :=
  match v with
  | none => 0
  | some q => q

/-- Asset column value of a row. -/
def assetVal (a : Account) : ℚ := colVal a.asset

/-- Liability column value of a row. -/
def liabVal (a : Account) : ℚ := colVal a.liability

/-- One entry of the generated Balance General. -/
structure BGEntry where
  accountCode : String
  accountName : String
  amount : ℚ
  deriving DecidableEq

/-- Totals block of the generated Balance General. -/
structure BGTotals where
  total_assets : ℚ
  total_liabilities : ℚ
  total_equity : ℚ
  balance_check : ℚ

/-- The generated Balance General document body. -/
structure BalanceGeneral where
  assets : List BGEntry
  liabilities : List BGEntry
  equity : List BGEntry
  totals : BGTotals

/-- Comparator used by the sorted calls of the source: ascending
account code. -/
def entryLe (a b : BGEntry) : Bool := a.accountCode ≤ b.accountCode

/-- process_balance_sheet of generate_balance_general.py: keep the rows
with a strictly positive asset respectively liability column, total the
two sides, make the result of the exercise the single equity entry, and
return both lists sorted by account code with the totals block. -/
def process_balance_sheet (rows : List Account) : BalanceGeneral :=
  let assets := (rows.filter (fun a => 0 < assetVal a)).map
    (fun a => BGEntry.mk a.accountCode a.accountName (assetVal a))
  let liabilities := (rows.filter (fun a => 0 < liabVal a)).map
    (fun a => BGEntry.mk a.accountCode a.accountName (liabVal a))
  let total_assets := (assets.map (fun e => e.amount)).sum
  let total_liabilities := (liabilities.map (fun e => e.amount)).sum
  let result_of_exercise := total_assets - total_liabilities
  let equity := [BGEntry.mk "RES-EJER" "Resultado del Ejercicio" result_of_exercise]
  ⟨assets.mergeSort entryLe, liabilities.mergeSort entryLe, equity,
   ⟨total_assets, total_liabilities, result_of_exercise,
    total_assets - (total_liabilities + result_of_exercise)⟩⟩

theorem entryLe_trans (a b c : BGEntry) (h1 : entryLe a b = true)
    (h2 : entryLe b c = true) : entryLe a c = true := by
  simp only [entryLe, decide_eq_true_eq] at *
  exact le_trans h1 h2

theorem entryLe_total (a b : BGEntry) : (entryLe a b || entryLe b a) = true := by
  simp only [entryLe, Bool.or_eq_true, decide_eq_true_eq]
  exact le_total a.accountCode b.accountCode

/-- C10: the generated totals satisfy the accounting identities, the
balance check is exactly 0 under exact arithmetic, and the asset and
liability lists are sorted by account code and contain exactly the
rows whose respective column is strictly positive. -/
theorem balance_general_exact (rows : List Account) :
    (process_balance_sheet rows).totals.total_equity
        = (process_balance_sheet rows).totals.total_assets
          - (process_balance_sheet rows).totals.total_liabilities ∧
    (process_balance_sheet rows).totals.balance_check
        = (process_balance_sheet rows).totals.total_assets
          - ((process_balance_sheet rows).totals.total_liabilities
             + (process_balance_sheet rows).totals.total_equity) ∧
    (process_balance_sheet rows).totals.balance_check = 0 ∧
    List.Pairwise (fun a b : BGEntry => a.accountCode ≤ b.accountCode)
      (process_balance_sheet rows).assets ∧
    List.Pairwise (fun a b : BGEntry => a.accountCode ≤ b.accountCode)
      (process_balance_sheet rows).liabilities ∧
    (∀ e : BGEntry, e ∈ (process_balance_sheet rows).assets ↔
        ∃ a ∈ rows, 0 < assetVal a
          ∧ e = BGEntry.mk a.accountCode a.accountName (assetVal a)) ∧
    (∀ e : BGEntry, e ∈ (process_balance_sheet rows).liabilities ↔
        ∃ a ∈ rows, 0 < liabVal a
          ∧ e = BGEntry.mk a.accountCode a.accountName (liabVal a)) := by
  refine ⟨rfl, rfl, by simp [process_balance_sheet], ?_, ?_, ?_, ?_⟩
  · have h := List.sorted_mergeSort entryLe_trans entryLe_total
      ((rows.filter (fun a => 0 < assetVal a)).map
        (fun a => BGEntry.mk a.accountCode a.accountName (assetVal a)))
    exact h.imp (by simp [entryLe])
  · have h := List.sorted_mergeSort entryLe_trans entryLe_total
      ((rows.filter (fun a => 0 < liabVal a)).map
        (fun a => BGEntry.mk a.accountCode a.accountName (liabVal a)))
    exact h.imp (by simp [entryLe])
  · intro e
    show e ∈ List.mergeSort _ entryLe ↔ _
    rw [List.mem_mergeSort]
    simp only [List.mem_map, List.mem_filter, decide_eq_true_eq]
    constructor
    · rintro ⟨a, ⟨ha, hpos⟩, rfl⟩
      exact ⟨a, ha, hpos, rfl⟩
    · rintro ⟨a, ha, hpos, rfl⟩
      exact ⟨a, ⟨ha, hpos⟩, rfl⟩
  · intro e
    show e ∈ List.mergeSort _ entryLe ↔ _
    rw [List.mem_mergeSort]
    simp only [List.mem_map, List.mem_filter, decide_eq_true_eq]
    constructor
    · rintro ⟨a, ⟨ha, hpos⟩, rfl⟩
      exact ⟨a, ha, hpos, rfl⟩
    · rintro ⟨a, ha, hpos, rfl⟩
      exact ⟨a, ⟨ha, hpos⟩, rfl⟩

/-- Witness for C3 amended at an empty store over a five-day range and
a February backfill window. -/
theorem batch_bounded_amended_witness :
    (selectBatch 2 (get_missing_dates (fun _ => ([] : List (SyncDoc Nat))) 0 4)).length ≤ 2 ∧
    selectBatch 2 (get_missing_dates (fun _ => ([] : List (SyncDoc Nat))) 0 4)
      <+: get_missing_dates (fun _ => ([] : List (SyncDoc Nat))) 0 4 ∧
    List.Pairwise (fun a b : Nat => a < b)
      (get_missing_dates (fun _ => ([] : List (SyncDoc Nat))) 0 4) ∧
    backfillSelect 7 (fun _ => ([] : List (SyncDoc Nat))) ⟨2025, 2, 1⟩ ⟨2025, 2, 28⟩
      = backfillSelect 31 (fun _ => ([] : List (SyncDoc Nat))) ⟨2025, 2, 1⟩ ⟨2025, 2, 28⟩ ∧
    (backfillSelect 7 (fun _ => ([] : List (SyncDoc Nat)))
        ⟨2025, 2, 1⟩ ⟨2025, 2, 28⟩).length ≤ 31 :=
  batch_bounded_amended (fun _ => []) 0 4 2 ⟨2025, 2, 1⟩ ⟨2025, 2, 28⟩ 7 31

/-- Witness for C10 at a concrete two-row balance. -/
theorem balance_general_exact_witness :
    (process_balance_sheet
        [⟨"2-01", "Deudas", none, some 4⟩, ⟨"1-01", "Caja", some 10, none⟩]).totals.balance_check
      = 0 ∧
    List.Pairwise (fun a b : BGEntry => a.accountCode ≤ b.accountCode)
      (process_balance_sheet
        [⟨"2-01", "Deudas", none, some 4⟩, ⟨"1-01", "Caja", some 10, none⟩]).assets :=
  ⟨(balance_general_exact
      [⟨"2-01", "Deudas", none, some 4⟩, ⟨"1-01", "Caja", some 10, none⟩]).2.2.1,
   (balance_general_exact
      [⟨"2-01", "Deudas", none, some 4⟩, ⟨"1-01", "Caja", some 10, none⟩]).2.2.2.1⟩
